import Mathlib

/-!
# shoes-recommend: the catalog loader, the response parser and the conversation store

A shallow embedding of `src/pages/index.js`.

* A JavaScript string is the list of its UTF-16 code units (`JSString`), so that
  `length`, `substring`, `split`, `trim` and the regular expressions (none of which
  carries the `u` flag) act on the same units as in the source.
* Each regular expression of the source is embedded as a matcher anchored at one
  position, together with the left-to-right search for the first position where
  the anchored matcher succeeds.  The doc comment of each matcher quotes the
  expression and says why the greedy choice is the only one backtracking can end on.
* The React state of `ChatProvider` is a record; `handleSendMessage` is split at
  its single `await` into the part that runs before the gateway call and the part
  that runs once the call has settled.
-/

namespace ShoesRecommend

/-! ## Strings -/

/-- One UTF-16 code unit. -/
abbrev CodeUnit := Nat

/-- The code units of a JavaScript string, in order. -/
abbrev JSString := List CodeUnit

/-- UTF-16 encoding of one character: itself in the basic plane, a surrogate pair above. -/
def utf16 (c : Char) : List CodeUnit :=
  if c.toNat < 65536 then [c.toNat]
  else [55296 + (c.toNat - 65536) / 1024, 56320 + (c.toNat - 65536) % 1024]

/-- The JavaScript string written as a literal. -/
def js (s : String) : JSString :=
  s.toList.flatMap utf16

/-- The characters removed by `String.prototype.trim` and matched by `\s`:
WhiteSpace and LineTerminator of ECMAScript. -/
def isWhiteSpace (c : CodeUnit) : Bool :=
  c == 9 || c == 10 || c == 11 || c == 12 || c == 13 || c == 32 || c == 160 ||
  c == 5760 || (8192 ≤ c && c ≤ 8202) || c == 8232 || c == 8233 || c == 8239 ||
  c == 8287 || c == 12288 || c == 65279

/-- The method `String.prototype.trim`. -/
def trim (s : JSString) : JSString :=
  (s.dropWhile isWhiteSpace).rdropWhile isWhiteSpace

/-- The method `String.prototype.split` with a separator of one code unit. -/
def split (sep : CodeUnit) : JSString → List JSString
  | [] => [[]]
  | c :: cs =>
    if c = sep then [] :: split sep cs
    else
      match split sep cs with
      | [] => [[c]]
      | w :: ws => (c :: w) :: ws

/-- The method `String.prototype.substring(0, n)`. -/
def substring0 (s : JSString) (n : Nat) : JSString :=
  s.take n

/-- Matches a literal at the head of the input and returns what follows it. -/
def dropLiteral : JSString → JSString → Option JSString
  | [], cs => some cs
  | _ :: _, [] => none
  | l :: ls, c :: cs => if l = c then dropLiteral ls cs else none

/-- The first position, from left to right, at which an anchored matcher succeeds:
how `String.prototype.match` and `RegExp.prototype.exec` look for a match. -/
def firstMatch {α : Type} (f : JSString → Option α) : JSString → Option α
  | [] => f []
  | c :: cs =>
    match f (c :: cs) with
    | some a => some a
    | none => firstMatch f cs

/-- Decimal digits of a number, least significant first, with fuel. -/
def decimalDigits : Nat → Nat → List CodeUnit
  | 0, _ => []
  | fuel + 1, n => (48 + n % 10) :: (if n / 10 = 0 then [] else decimalDigits fuel (n / 10))

/-- The string a number is rendered as inside a template literal. -/
def numberToString (n : Nat) : JSString :=
  (decimalDigits (n + 1) n).reverse

/-- ASCII lower-casing.  `extractKeywords` compares `word.toLowerCase()` with
ASCII words that contain no `k`; on such comparisons `toLowerCase` and this
function agree, since U+212A is the only other code unit that lower-cases to an
ASCII letter. -/
def toLowerCase (s : JSString) : JSString :=
  s.map fun c => if 65 ≤ c ∧ c ≤ 90 then c + 32 else c

/-! ## Catalog loader -/

/-- A catalog record, as built by `parseProductDataFromMarkdown`. -/
structure Product where
  id : JSString
  name : JSString
  brand : JSString
  description : JSString
  price : JSString
  gender : JSString
  productLink : JSString
  imageLink : JSString
  keywords : List JSString
  deriving DecidableEq, Repr

/-- The class `[0-9.]`. -/
def isPriceChar (c : CodeUnit) : Bool :=
  (48 ≤ c && c ≤ 57) || c == 46

/-- The group `(£[0-9.]+\s*-\s*£?[0-9.]+|£[0-9.]+)` anchored at the head of the input.
Each greedy run is followed by a character outside its class, so a shorter run
never lets the rest match; the second alternative is tried when the first fails. -/
def priceGroup : JSString → Option JSString
  | 163 :: r =>
    let d1 := r.takeWhile isPriceChar
    if d1 = [] then none
    else
      let r1 := r.dropWhile isPriceChar
      let w1 := r1.takeWhile isWhiteSpace
      match r1.dropWhile isWhiteSpace with
      | 45 :: r3 =>
        let w2 := r3.takeWhile isWhiteSpace
        let r4 := r3.dropWhile isWhiteSpace
        let pound : JSString := match r4 with
          | 163 :: _ => [163]
          | _ => []
        let r5 := match r4 with
          | 163 :: t => t
          | _ => r4
        let d2 := r5.takeWhile isPriceChar
        if d2 = [] then some (163 :: d1)
        else some (163 :: d1 ++ w1 ++ [45] ++ w2 ++ pound ++ d2)
      | _ => some (163 :: d1)
  | _ => none

/-- The expression `/Price:\s*(£[0-9.]+\s*-\s*£?[0-9.]+|£[0-9.]+)/` anchored at the
head of the input; the result is group 1. -/
def priceAt (cs : JSString) : Option JSString :=
  match dropLiteral (js "Price:") cs with
  | none => none
  | some r => priceGroup (r.dropWhile isWhiteSpace)

/-- The lazy group `(.*?)` followed by `(?:Product description|Product details|$)`:
the shortest run after which one of the two phrases, or the end of the input, stands. -/
def lazyUntilProduct : JSString → JSString
  | [] => []
  | c :: cs =>
    if (dropLiteral (js "Product description") (c :: cs)).isSome
        || (dropLiteral (js "Product details") (c :: cs)).isSome then []
    else c :: lazyUntilProduct cs

/-- The expression `/About this item(.*?)(?:Product description|Product details|$)/s`
anchored at the head of the input; the result is group 1. -/
def aboutAt (cs : JSString) : Option JSString :=
  match dropLiteral (js "About this item") cs with
  | none => none
  | some r => some (lazyUntilProduct r)

/-- The expression `/LABEL([^|]+)/` anchored at the head of the input; the result
is group 1, the longest run without a pipe, which must not be empty. -/
def labelAt (label : JSString) (cs : JSString) : Option JSString :=
  match dropLiteral label cs with
  | none => none
  | some r =>
    let g := r.takeWhile (fun c => c != 124)
    if g = [] then none else some g

/-- The function `extractKeywords` of the source. -/
def extractKeywords (inputAI : JSString) : List JSString :=
  let materials : List JSString :=
    match firstMatch (labelAt (js "Material composition")) inputAI with
    | some g =>
      (split 32 g).filter fun word =>
        decide (word.length > 3) &&
          !([js "composition", js "with", js "and", js "the"].contains (toLowerCase word))
    | none => []
  let care : List JSString :=
    match firstMatch (labelAt (js "Care instructions")) inputAI with
    | some g => [trim g]
    | none => []
  let sole : List JSString :=
    match firstMatch (labelAt (js "Sole material")) inputAI with
    | some g => [trim g]
    | none => []
  let outer : List JSString :=
    match firstMatch (labelAt (js "Outer material")) inputAI with
    | some g => [trim g]
    | none => []
  let nameWords : List JSString :=
    (split 32 inputAI).filter fun word =>
      decide (word.length > 4) &&
        !([js "Price", js "Product", js "details", js "About", js "this", js "item"].contains word)
  (materials ++ care ++ sole ++ outer ++ nameWords.take 10).eraseDups

/-- The rows of the document: `mdContent.split('\n').filter(row => row.trim().length > 0)`. -/
def rowsOf (mdContent : JSString) : List JSString :=
  (split 10 mdContent).filter fun row => decide ((trim row).length > 0)

/-- The data rows: `rows.slice(4)`. -/
def dataRowsOf (mdContent : JSString) : List JSString :=
  (rowsOf mdContent).drop 4

/-- The cells of a row: `row.split('|').map(col => col.trim()).filter(col => col.length > 0)`. -/
def columnsOf (row : JSString) : List JSString :=
  ((split 124 row).map trim).filter fun col => decide (col.length > 0)

/-- The body of the `forEach` callback: the product a row yields at a given index, if any. -/
def productOfRow (row : JSString) (index : Nat) : Option Product :=
  let columns := columnsOf row
  if columns.length ≥ 6 then
    match columns with
    | name :: brand :: inputAI :: productLink :: gender :: imageLink :: _ =>
      let price := match firstMatch priceAt inputAI with
        | some g => g
        | none => []
      let description := match firstMatch aboutAt inputAI with
        | some g => trim g
        | none => []
      some {
        id := js "product_" ++ numberToString (index + 1)
        name := name
        brand := brand
        description := description
        price := price
        gender := gender
        productLink := productLink
        imageLink := imageLink
        keywords := extractKeywords inputAI }
    | _ => none
  else none

/-- The loop `dataRows.forEach((row, index) => ...)`, pushing onto `products`. -/
def forEachRow : List JSString → Nat → List Product → List Product
  | [], _, products => products
  | row :: rest, index, products =>
    match productOfRow row index with
    | some product => forEachRow rest (index + 1) (products ++ [product])
    | none => forEachRow rest (index + 1) products

/-- The function `parseProductDataFromMarkdown` of the source. -/
def parseProductDataFromMarkdown (mdContent : JSString) : List Product :=
  forEachRow (dataRowsOf mdContent) 0 []

/-! ## Response parser -/

/-- The text before the id in a product card tag. -/
def tagOpen : JSString :=
  js "<product-card data-id=\""

/-- The text after the id in a product card tag. -/
def tagClose : JSString :=
  js "\"></product-card>"

/-- A match of `productCardRegex`, as pushed onto `productCardMatches`. -/
structure CardMatch where
  fullMatch : JSString
  productId : JSString
  index : Nat
  deriving DecidableEq, Repr

/-- The expression `/<product-card data-id="([^"]+)"><\/product-card>/` anchored at
the head of the input; the result is group 1.  The greedy run `[^"]+` stops at the
first double quote or at the end, and a shorter run is followed by a character
that is not a double quote, so no other run lets the rest match. -/
def productCardAt (cs : JSString) : Option JSString :=
  match dropLiteral tagOpen cs with
  | none => none
  | some r =>
    let id := r.takeWhile (fun c => c != 34)
    if id = [] then none
    else
      match dropLiteral tagClose (r.dropWhile (fun c => c != 34)) with
      | none => none
      | some _ => some id

/-- The search of `productCardRegex` through a suffix of the reply that starts at
position `index` of the reply. -/
def searchCard : JSString → Nat → Option CardMatch
  | [], _ => none
  | c :: cs, index =>
    match productCardAt (c :: cs) with
    | some id => some { fullMatch := tagOpen ++ id ++ tagClose, productId := id, index := index }
    | none => searchCard cs (index + 1)

/-- One call `productCardRegex.exec(response)` of the global expression whose
`lastIndex` is the given one. -/
def productCardRegexExec (response : JSString) (lastIndex : Nat) : Option CardMatch :=
  if lastIndex > response.length then none
  else searchCard (response.drop lastIndex) lastIndex

/-- The variables the `while` loop of `parseProductRecommendations` updates. -/
structure LoopState where
  lastIndex : Nat
  productCardMatches : List CardMatch
  recommendedProducts : List Product
  deriving DecidableEq, Repr

/-- The loop `while ((match = productCardRegex.exec(response)) !== null)`, with
fuel: `none` when the fuel runs out before `exec` returns `null`. -/
def whileLoop (productsData : List Product) (response : JSString) :
    Nat → LoopState → Option LoopState
  | 0, _ => none
  | fuel + 1, st =>
    match productCardRegexExec response st.lastIndex with
    | none => some { st with lastIndex := 0 }
    | some m =>
      whileLoop productsData response fuel
        { lastIndex := m.index + m.fullMatch.length
          productCardMatches := st.productCardMatches ++ [m]
          recommendedProducts :=
            match productsData.find? (fun p => p.id == m.productId) with
            | some product => st.recommendedProducts ++ [product]
            | none => st.recommendedProducts }

/-- The class `[.!?]`. -/
def isSentenceEnd (c : CodeUnit) : Bool :=
  c == 46 || c == 33 || c == 63

/-- The expression `/^([^.!?]+[.!?])/`; the result is group 1.  The greedy run
stops at the first of `.`, `!`, `?` or at the end, and a shorter run is followed by
a character outside `[.!?]`. -/
def firstSentenceMatch (introText : JSString) : Option JSString :=
  let run := introText.takeWhile (fun c => !isSentenceEnd c)
  if run = [] then none
  else
    match introText.dropWhile (fun c => !isSentenceEnd c) with
    | [] => none
    | p :: _ => some (run ++ [p])

/-- The lead-in text computed from the matches, lines 72 to 87 of the source. -/
def introTextOf (response : JSString) (productCardMatches : List CardMatch) : JSString :=
  match productCardMatches with
  | [] => []
  | first :: _ =>
    if first.index > 0 then
      let introText := trim (substring0 response first.index)
      match firstSentenceMatch introText with
      | some g => trim g
      | none =>
        if introText.length > 120 then substring0 introText 120 ++ js "..."
        else introText
    else []

/-- The constant `fixedOutroText`. -/
def fixedOutroText : JSString :=
  js "Would you like more specific recommendations? Feel free to ask for other styles or features."

/-- The object returned by `parseProductRecommendations`. -/
structure ParseResult where
  text : JSString
  introText : JSString
  outroText : JSString
  products : List Product
  deriving DecidableEq, Repr

/-- The function `parseProductRecommendations` of the source; `none` only if the
loop ran out of fuel. -/
def parseProductRecommendations (productsData : List Product) (response : JSString) :
    Option ParseResult :=
  match whileLoop productsData response (response.length + 1)
      { lastIndex := 0, productCardMatches := [], recommendedProducts := [] } with
  | none => none
  | some st =>
    some {
      text := response
      introText := introTextOf response st.productCardMatches
      outroText := if st.recommendedProducts.length > 0 then fixedOutroText else []
      products := st.recommendedProducts }

/-! ## Conversation store -/

/-- The roles a turn or a message carries. -/
inductive Role where
  | system
  | user
  | assistant
  deriving DecidableEq, Repr

/-- An entry of `chatHistory`, the transcript sent to the model. -/
structure Turn where
  role : Role
  content : JSString
  deriving DecidableEq, Repr

/-- An entry of `messages`, the list the page renders; the last three fields are
present only on a parsed reply. -/
structure DisplayMessage where
  id : JSString
  role : Role
  content : JSString
  introText : Option JSString
  outroText : Option JSString
  products : Option (List Product)
  deriving DecidableEq, Repr

/-- The state of `ChatProvider` that `handleSendMessage` reads and writes. -/
structure ChatState where
  messages : List DisplayMessage
  input : JSString
  isLoading : Bool
  chatHistory : List Turn
  deriving DecidableEq, Repr

/-- How the promise returned by `callClaudeAPI` settles: with the reply, or with an
error whose `message` may be absent. -/
inductive GatewayResult where
  | resolved (content : JSString)
  | rejected (message : Option JSString)
  deriving DecidableEq, Repr

/-- The function `formatMessagesForClaude` of the source. -/
def formatMessagesForClaude (history : List Turn) : List Turn :=
  history.map fun msg => { role := msg.role, content := msg.content }

/-- The function `ensureSystemIsReady` of the source. -/
def ensureSystemIsReady (productsData : List Product) (chatHistory : List Turn) : Bool :=
  if productsData.length = 0 then false
  else
    match chatHistory with
    | [] => false
    | first :: _ => if first.role ≠ Role.system then false else true

/-- The content of the message shown while the system is not ready. -/
def notReadyText : JSString :=
  js "系统正在准备中，请稍后再试..."

/-- The text of the message shown when the gateway call fails, lines 236 to 239. -/
def errorText (message : Option JSString) : JSString :=
  match message with
  | some m =>
    if m.length > 0 then js "Sorry, I encountered an error. Please try again later." ++ js " Error: " ++ m
    else js "Sorry, I encountered an error. Please try again later."
  | none => js "Sorry, I encountered an error. Please try again later."

/-- What `handleSendMessage` keeps across its `await`: the transcript it built and
the request it sent. -/
structure Pending where
  updatedHistory : List Turn
  request : List Turn
  deriving DecidableEq, Repr

/-- The state when `handleSendMessage` returns or reaches its `await`, and the
gateway call it is waiting for, if it made one. -/
structure Started where
  state : ChatState
  pending : Option Pending
  deriving DecidableEq, Repr

/-- The part of `handleSendMessage` that runs before the gateway call, lines 176 to
214.  The k-th call of `generateMessageId` in one run returns `generateMessageId k`. -/
def handleSendMessageStart (productsData : List Product) (generateMessageId : Nat → JSString)
    (s : ChatState) : Started :=
  if (trim s.input).length = 0 then { state := s, pending := none }
  else if !ensureSystemIsReady productsData s.chatHistory then
    { state := { s with
        messages := s.messages ++ [{
          id := generateMessageId 0
          role := Role.assistant
          content := notReadyText
          introText := none
          outroText := none
          products := none }] }
      pending := none }
  else
    let currentInput := s.input
    let userMessage : DisplayMessage := {
      id := generateMessageId 0
      role := Role.user
      content := currentInput
      introText := none
      outroText := none
      products := none }
    let chatUserMessage : Turn := { role := Role.user, content := currentInput }
    let updatedHistory := s.chatHistory ++ [chatUserMessage]
    { state := {
        messages := s.messages ++ [userMessage]
        input := []
        isLoading := true
        chatHistory := updatedHistory }
      pending := some {
        updatedHistory := updatedHistory
        request := formatMessagesForClaude updatedHistory } }

/-- The part of `handleSendMessage` that runs once the gateway call has settled,
lines 216 to 248; `none` only if the parser ran out of fuel. -/
def handleSendMessageSettle (productsData : List Product) (generateMessageId : Nat → JSString)
    (p : Pending) (settled : GatewayResult) (s : ChatState) : Option ChatState :=
  match settled with
  | GatewayResult.resolved response =>
    match parseProductRecommendations productsData response with
    | none => none
    | some result =>
      let chatAiMessage : Turn := { role := Role.assistant, content := response }
      some {
        messages := s.messages ++ [{
          id := generateMessageId 1
          role := Role.assistant
          content := result.text
          introText := some result.introText
          outroText := some result.outroText
          products := some result.products }]
        input := s.input
        isLoading := false
        chatHistory := p.updatedHistory ++ [chatAiMessage] }
  | GatewayResult.rejected message =>
    some {
      messages := s.messages ++ [{
        id := generateMessageId 1
        role := Role.assistant
        content := errorText message
        introText := none
        outroText := none
        products := none }]
      input := s.input
      isLoading := false
      chatHistory := s.chatHistory }

/-- The state a handler leaves and the requests it sent to the gateway. -/
structure Outcome where
  state : ChatState
  calls : List (List Turn)
  deriving DecidableEq, Repr

/-- The function `handleSendMessage` of the source, run to completion against a
gateway that settles the request as `callClaudeAPI` says. -/
def handleSendMessage (productsData : List Product) (generateMessageId : Nat → JSString)
    (callClaudeAPI : List Turn → GatewayResult) (s : ChatState) : Option Outcome :=
  let started := handleSendMessageStart productsData generateMessageId s
  match started.pending with
  | none => some { state := started.state, calls := [] }
  | some p =>
    match handleSendMessageSettle productsData generateMessageId p (callClaudeAPI p.request)
        started.state with
    | none => none
    | some s' => some { state := s', calls := [p.request] }

/-- The function `handleKeyPress` of the source, for the key of the event. -/
def handleKeyPress (productsData : List Product) (generateMessageId : Nat → JSString)
    (callClaudeAPI : List Turn → GatewayResult) (key : JSString) (s : ChatState) :
    Option Outcome :=
  if key = js "Enter" ∧ s.isLoading = false then
    handleSendMessage productsData generateMessageId callClaudeAPI s
  else some { state := s, calls := [] }

/-- The effect of `ChatProvider` that sets the transcript once the system prompt
is there, lines 24 to 28. -/
def initialChatHistory (initialSystemPrompt : JSString) : List Turn :=
  if (trim initialSystemPrompt).length ≠ 0 then
    [{ role := Role.system, content := initialSystemPrompt }]
  else []

/-! ## Definitions used to state the properties -/

/-- Value of a list of decimal digit code units, least significant first. -/
def digitsValue : List CodeUnit → Nat
  | [] => 0
  | d :: ds => (d - 48) + 10 * digitsValue ds

/-- The positions, counted from 1 among the data rows, of the rows that have at
least 6 cells. -/
def acceptedPositions (mdContent : JSString) : List Nat :=
  ((dataRowsOf mdContent).enum.filter
    (fun ir => decide (6 ≤ (columnsOf ir.2).length))).map (fun ir => ir.1 + 1)

/-- A catalog text: four header lines, a data row with too few cells, a data row
with six cells. -/
def catalogWithSkippedRow : JSString :=
  js "h1\nh2\nh3\nh4\nnot a product\nName|Brand|About this item Nice|http://x|unisex|http://img"

/-- A catalog text whose second line is blank and whose fifth line is a row with
six cells. -/
def catalogWithBlankHeaderLine : JSString :=
  js "h1\n\nh2\nh3\nName|Brand|About this item Nice|http://x|unisex|http://img"

/-- A catalog text whose second and seventh lines are blank: four header lines in
five lines, then two data rows with six cells each around a blank line. -/
def catalogWithBlankLines : JSString :=
  js "h1\n\nh2\nh3\nh4\nA|B|C|http://a|men|http://i\n\nD|E|F|http://d|women|http://j"

/-- A catalog text that holds only the header and the separator of a markdown table. -/
def catalogHeaderOnly : JSString :=
  js "| Name | Brand | Input AI | Link | Gender | Image |\n|---|---|---|---|---|---|\n"

/-- A catalog text: four header lines and two data rows with six cells each. -/
def catalogWithTwoRows : JSString :=
  js "h1\nh2\nh3\nh4\nA|B|C|http://a|men|http://i\nD|E|F|http://d|women|http://j"

/-- The text of a product card tag that carries the given id. -/
def tagText (id : JSString) : JSString :=
  tagOpen ++ id ++ tagClose

/-- An id the tag pattern accepts: a non-empty string without double quotes. -/
def ValidId (id : JSString) : Prop :=
  id ≠ [] ∧ (34 : CodeUnit) ∉ id

/-- The reply contains no occurrence of the tag pattern. -/
def NoTag (reply : JSString) : Prop :=
  ∀ pre id post, ValidId id → reply ≠ pre ++ tagText id ++ post

/-- The first occurrence of the tag pattern in the reply: it carries `id`, the
text `pre` stands before it and `post` after it, and no occurrence starts earlier. -/
def FirstTag (reply pre id post : JSString) : Prop :=
  ValidId id ∧ reply = pre ++ tagText id ++ post ∧
    ∀ pre' id' post', ValidId id' → reply = pre' ++ tagText id' ++ post' →
      pre.length ≤ pre'.length

/-- The non-overlapping occurrences of the tag pattern from left to right, in a
text that starts at position `offset` of the reply: the first occurrence, then the
occurrences in what follows it. -/
inductive TagMatches : JSString → Nat → List CardMatch → Prop
  | done {text : JSString} {offset : Nat} : NoTag text → TagMatches text offset []
  | next {text pre id post : JSString} {offset : Nat} {ms : List CardMatch} :
      FirstTag text pre id post →
      TagMatches post (offset + pre.length + (tagText id).length) ms →
      TagMatches text offset
        ({ fullMatch := tagText id, productId := id, index := offset + pre.length } :: ms)

/-- A product with the id `product_1`. -/
def productOne : Product :=
  { id := js "product_1", name := js "Runner", brand := js "Acme", description := js "Light",
    price := js "£49.99", gender := js "unisex", productLink := js "http://x",
    imageLink := js "http://img", keywords := [js "leather"] }

/-- A reply with a known tag, an unknown tag and the known tag again. -/
def replyWithRepeatedTag : JSString :=
  js "Try these. <product-card data-id=\"product_1\"></product-card><product-card data-id=\"product_9\"></product-card> or <product-card data-id=\"product_1\"></product-card>"

/-- A reply without any product card tag. -/
def replyWithoutTag : JSString :=
  js "Which size do you need? A <product-card data-id=\"\"></product-card> is no tag."

/-- The text up to and including its first `.`, `!` or `?` (all of it when it has none). -/
def firstSentence : JSString → JSString
  | [] => []
  | c :: cs => if isSentenceEnd c then [c] else c :: firstSentence cs

/-- The lead-in rule in the words of the specification: the first sentence when the
text contains `.`, `!` or `?`; else the first 120 code units and an ellipsis when it
is longer than 120; else the text. -/
def statedIntroText (l : JSString) : JSString :=
  if l.any isSentenceEnd then firstSentence l
  else if l.length > 120 then l.take 120 ++ js "..."
  else l

/-- The lead-in rule of the code: the first sentence only when the text contains `.`,
`!` or `?` and does not begin with one of them; else the first 120 code units and an
ellipsis when it is longer than 120; else the text. -/
def codeIntroText (l : JSString) : JSString :=
  if l.any isSentenceEnd ∧ l.head?.map isSentenceEnd = some false then firstSentence l
  else if l.length > 120 then l.take 120 ++ js "..."
  else l

/-- A reply whose text before the tag begins with a full stop. -/
def replyDotFirst : JSString :=
  js ".a<product-card data-id=\"product_1\"></product-card>"

/-- A reply with a sentence and more text before the tag. -/
def replyWithSentence : JSString :=
  js " Here you go! More text <product-card data-id=\"product_1\"></product-card> bye"

/-- The roles `user`, `assistant`, `user`, `assistant`, ... in strict alternation. -/
def alternating : List Role → Bool
  | [] => true
  | [Role.user] => true
  | Role.user :: Role.assistant :: rest => alternating rest
  | _ => false

/-- The shape in the words of the specification: one system turn at index 0, then
user and assistant turns in strict alternation. -/
def strictlyAlternating (chatHistory : List Turn) : Bool :=
  match chatHistory.map (fun t => t.role) with
  | Role.system :: rest => alternating rest
  | _ => false

/-- No system role occurs, and every assistant role stands right after a user role;
`prev` is the role before the list. -/
def assistantsFollowUsers : Role → List Role → Bool
  | _, [] => true
  | _, Role.user :: rest => assistantsFollowUsers Role.user rest
  | prev, Role.assistant :: rest =>
    decide (prev = Role.user) && assistantsFollowUsers Role.assistant rest
  | _, Role.system :: _ => false

/-- The shape the code keeps: one system turn at index 0, then user and assistant
turns in which every assistant turn directly follows a user turn. -/
def systemThenAnswered (chatHistory : List Turn) : Bool :=
  match chatHistory.map (fun t => t.role) with
  | Role.system :: rest => assistantsFollowUsers Role.system rest
  | _ => false

/-- The states the page reaches from the initial transcript by typing and by
submits that run to completion.  With `mayFail = false` only gateway calls that
resolve are considered. -/
inductive Reachable (productsData : List Product) (mayFail : Bool) : ChatState → Prop
  | init (initialMessages : List DisplayMessage) (systemPrompt : JSString) :
      Reachable productsData mayFail
        { messages := initialMessages, input := [], isLoading := false,
          chatHistory := [{ role := Role.system, content := systemPrompt }] }
  | setInput {s : ChatState} (text : JSString) :
      Reachable productsData mayFail s →
      Reachable productsData mayFail { s with input := text }
  | submit {s : ChatState} {out : Outcome} (generateMessageId : Nat → JSString)
      (callClaudeAPI : List Turn → GatewayResult) :
      Reachable productsData mayFail s →
      (mayFail = true ∨ ∀ request, ∃ content, callClaudeAPI request = GatewayResult.resolved content) →
      handleSendMessage productsData generateMessageId callClaudeAPI s = some out →
      Reachable productsData mayFail out.state

/-- Message ids for the examples: `msg-0`, `msg-1`, ... -/
def exampleIds (k : Nat) : JSString :=
  js "msg-" ++ numberToString k

/-- A gateway whose every call fails. -/
def failingGateway (_ : List Turn) : GatewayResult :=
  GatewayResult.rejected (some (js "API request failed"))

/-- A gateway whose every call resolves with a reply without tags. -/
def answeringGateway (_ : List Turn) : GatewayResult :=
  GatewayResult.resolved (js "Which size?")

/-- A ready state with pending input. -/
def readyState : ChatState :=
  { messages := [], input := js "boots", isLoading := false,
    chatHistory := [{ role := Role.system, content := js "You are a shopping assistant" }] }

/-- A ready state with pending input whose busy flag is set. -/
def busyState : ChatState :=
  { messages := [], input := js "boots", isLoading := true,
    chatHistory := [{ role := Role.system, content := js "You are a shopping assistant" }] }

/-- A state with pending input whose transcript has not been set up yet. -/
def notReadyState : ChatState :=
  { messages := [], input := js "boots", isLoading := false, chatHistory := [] }

/-- The state after a failed submit of `boots` and a successful submit of `sandals`. -/
def stateAfterFailThenSuccess : ChatState :=
  { messages := [
      { id := js "msg-0", role := Role.user, content := js "boots",
        introText := none, outroText := none, products := none },
      { id := js "msg-1", role := Role.assistant,
        content := js "Sorry, I encountered an error. Please try again later. Error: API request failed",
        introText := none, outroText := none, products := none },
      { id := js "msg-0", role := Role.user, content := js "sandals",
        introText := none, outroText := none, products := none },
      { id := js "msg-1", role := Role.assistant, content := js "Which size?",
        introText := some [], outroText := some [], products := some [] }]
    input := []
    isLoading := false
    chatHistory := [
      { role := Role.system, content := js "You are a shopping assistant" },
      { role := Role.user, content := js "boots" },
      { role := Role.user, content := js "sandals" },
      { role := Role.assistant, content := js "Which size?" }] }

/-- The state after a failed submit of `boots`. -/
def stateAfterFail : ChatState :=
  { messages := [
      { id := js "msg-0", role := Role.user, content := js "boots",
        introText := none, outroText := none, products := none },
      { id := js "msg-1", role := Role.assistant,
        content := js "Sorry, I encountered an error. Please try again later. Error: API request failed",
        introText := none, outroText := none, products := none }]
    input := []
    isLoading := false
    chatHistory := [
      { role := Role.system, content := js "You are a shopping assistant" },
      { role := Role.user, content := js "boots" }] }

/-- The reply of the two-tag scenario: a sentence, a tag for `product_1` and a tag
for `product_9`. -/
def replyTwoOptions : JSString :=
  js "Here are two options. <product-card data-id=\"product_1\"></product-card><product-card data-id=\"product_9\"></product-card>"

/-- The data row of the one-row scenario. -/
def scenarioRow : JSString :=
  js "Name|Brand|About this item Nice shoes Price: £49.99 Material composition leather|http://x|unisex|http://img"

/-- The product the one-row scenario yields. -/
def scenarioProduct : Product :=
  { id := js "product_1"
    name := js "Name"
    brand := js "Brand"
    description := js "Nice shoes Price: £49.99 Material composition leather"
    price := js "£49.99"
    gender := js "unisex"
    productLink := js "http://x"
    imageLink := js "http://img"
    keywords := [js "leather", js "shoes", js "Price:", js "£49.99", js "Material",
      js "composition"] }

/-- A catalog text of the one-row scenario, with the header of a markdown table. -/
def scenarioCatalog : JSString :=
  js "# Products\n| Name | Brand | Input AI | Link | Gender | Image |\n|---|---|---|---|---|---|\n| | | | | | |\nName|Brand|About this item Nice shoes Price: £49.99 Material composition leather|http://x|unisex|http://img"

set_option maxRecDepth 100000

/-! ## Facts about the catalog loader -/

theorem forEachRow_eq (rows : List JSString) (index : Nat) (products : List Product) :
    forEachRow rows index products
      = products ++ (rows.enumFrom index).filterMap (fun ir => productOfRow ir.2 ir.1) := by
  induction rows generalizing index products with
  | nil => simp [forEachRow]
  | cons row rest ih =>
    simp only [forEachRow, List.enumFrom_cons]
    cases h : productOfRow row index with
    | none => simp [ih, List.filterMap_cons, h]
    | some p => simp [ih, List.filterMap_cons, h]

theorem parseProductDataFromMarkdown_eq (mdContent : JSString) :
    parseProductDataFromMarkdown mdContent
      = (dataRowsOf mdContent).enum.filterMap (fun ir => productOfRow ir.2 ir.1) := by
  simp [parseProductDataFromMarkdown, forEachRow_eq, List.enum]

theorem productOfRow_none (row : JSString) (index : Nat) (h : (columnsOf row).length < 6) :
    productOfRow row index = none := by
  unfold productOfRow
  simp only []
  rw [if_neg (by omega)]

theorem productOfRow_some (row : JSString) (index : Nat) (h : 6 ≤ (columnsOf row).length) :
    ∃ p, productOfRow row index = some p ∧ p.id = js "product_" ++ numberToString (index + 1) := by
  unfold productOfRow
  simp only []
  rw [if_pos (by omega)]
  match hc : columnsOf row, h with
  | a :: b :: c :: d :: e :: f :: rest, _ => exact ⟨_, rfl, rfl⟩

theorem digitsValue_decimalDigits (fuel n : Nat) (h : n < fuel) :
    digitsValue (decimalDigits fuel n) = n := by
  induction fuel generalizing n with
  | zero => omega
  | succ fuel ih =>
    unfold decimalDigits
    by_cases h0 : n / 10 = 0
    · simp only [h0, if_true, digitsValue]
      omega
    · simp only [h0, if_false, digitsValue]
      rw [ih (n / 10) (by omega)]
      omega

theorem numberToString_injective (a b : Nat) (h : numberToString a = numberToString b) :
    a = b := by
  unfold numberToString at h
  have h2 := congrArg digitsValue (List.reverse_injective h)
  rwa [digitsValue_decimalDigits _ _ (Nat.lt_succ_self a),
    digitsValue_decimalDigits _ _ (Nat.lt_succ_self b)] at h2

theorem productId_injective (a b : Nat)
    (h : js "product_" ++ numberToString a = js "product_" ++ numberToString b) : a = b :=
  numberToString_injective a b (List.append_cancel_left h)

/-- The ids of what a list of indexed rows yields are the ids of the accepted rows' indices. -/
theorem ids_filterMap (l : List (Nat × JSString)) :
    (l.filterMap (fun ir => productOfRow ir.2 ir.1)).map (fun p => p.id)
      = (l.filter (fun ir => decide (6 ≤ (columnsOf ir.2).length))).map
          (fun ir => js "product_" ++ numberToString (ir.1 + 1)) := by
  induction l with
  | nil => rfl
  | cons x rest ih =>
    by_cases hx : 6 ≤ (columnsOf x.2).length
    · obtain ⟨p, hp, hid⟩ := productOfRow_some x.2 x.1 hx
      simp [List.filterMap_cons, hp, hx, hid, ih]
    · have hn := productOfRow_none x.2 x.1 (by omega)
      simp [List.filterMap_cons, hn, hx, ih]

theorem length_filterMap_productOfRow (l : List (Nat × JSString)) :
    (l.filterMap (fun ir => productOfRow ir.2 ir.1)).length
      = (l.filter (fun ir => decide (6 ≤ (columnsOf ir.2).length))).length := by
  have h := congrArg List.length (ids_filterMap l)
  simpa using h

theorem filter_enumFrom_snd (p : JSString → Bool) (rows : List JSString) (n : Nat) :
    ((rows.enumFrom n).filter (fun ir => p ir.2)).map Prod.snd = rows.filter p := by
  induction rows generalizing n with
  | nil => rfl
  | cons r rest ih =>
    by_cases hr : p r = true
    · simp [List.enumFrom_cons, List.filter_cons, hr, ih]
    · simp [List.enumFrom_cons, List.filter_cons, hr, ih]

theorem enum_positions {α : Type} (l : List α) :
    l.enum.map (fun ir => ir.1 + 1) = List.range' 1 l.length := by
  have h1 : l.enum.map (fun ir => ir.1 + 1) = (l.enum.map Prod.fst).map (fun i => 1 + i) := by
    rw [List.map_map]
    apply List.map_congr_left
    intro x _
    simp [Nat.add_comm]
  rw [h1, List.enum_map_fst, List.range'_eq_map_range]

theorem acceptedPositions_sorted (mdContent : JSString) :
    (acceptedPositions mdContent).Sorted (· < ·) := by
  unfold acceptedPositions
  have hsub : List.Sublist
      (((dataRowsOf mdContent).enum.filter
        (fun ir => decide (6 ≤ (columnsOf ir.2).length))).map (fun ir => ir.1 + 1))
      ((dataRowsOf mdContent).enum.map (fun ir => ir.1 + 1)) :=
    List.Sublist.map _ (List.filter_sublist _)
  rw [enum_positions] at hsub
  exact List.Pairwise.sublist hsub (List.pairwise_lt_range' 1 _)

theorem acceptedPositions_all (mdContent : JSString)
    (h : ∀ row ∈ dataRowsOf mdContent, 6 ≤ (columnsOf row).length) :
    acceptedPositions mdContent = List.range' 1 (dataRowsOf mdContent).length := by
  unfold acceptedPositions
  have hf : (dataRowsOf mdContent).enum.filter
      (fun ir => decide (6 ≤ (columnsOf ir.2).length)) = (dataRowsOf mdContent).enum := by
    apply List.filter_eq_self.mpr
    intro ir hir
    have hmem : ir.2 ∈ dataRowsOf mdContent := by
      rw [List.snd_eq_of_mem_enum hir]
      exact List.getElem_mem _
    simpa using h ir.2 hmem
  rw [hf, enum_positions]

theorem acceptedPositions_bounds (mdContent : JSString) :
    ∀ k ∈ acceptedPositions mdContent, 1 ≤ k ∧ k ≤ (dataRowsOf mdContent).length := by
  intro k hk
  unfold acceptedPositions at hk
  obtain ⟨ir, hir, rfl⟩ := List.mem_map.mp hk
  have hlt := List.fst_lt_of_mem_enum (List.mem_of_mem_filter hir)
  omega

/-- C1, as the code has it: the product made from the data row at position k, counted
from 1 among all data rows (skipped ones included), gets the id `product_k`.  The ids
are therefore strictly increasing and never reused, a skipped row leaves a gap, and
when no data row is skipped the ids are `product_1`, ..., `product_n`. -/
theorem parseProductDataFromMarkdown_ids (mdContent : JSString) :
    (parseProductDataFromMarkdown mdContent).map (fun p => p.id)
        = (acceptedPositions mdContent).map (fun k => js "product_" ++ numberToString k) ∧
    (acceptedPositions mdContent).Sorted (· < ·) ∧
    (∀ k ∈ acceptedPositions mdContent, 1 ≤ k ∧ k ≤ (dataRowsOf mdContent).length) ∧
    ((parseProductDataFromMarkdown mdContent).map (fun p => p.id)).Nodup ∧
    ((∀ row ∈ dataRowsOf mdContent, 6 ≤ (columnsOf row).length) →
      (parseProductDataFromMarkdown mdContent).map (fun p => p.id)
        = (List.range' 1 (dataRowsOf mdContent).length).map
            (fun k => js "product_" ++ numberToString k)) := by
  have hids : (parseProductDataFromMarkdown mdContent).map (fun p => p.id)
      = (acceptedPositions mdContent).map (fun k => js "product_" ++ numberToString k) := by
    rw [parseProductDataFromMarkdown_eq, ids_filterMap]
    simp [acceptedPositions, List.map_map, Function.comp_def]
  refine ⟨hids, acceptedPositions_sorted mdContent, acceptedPositions_bounds mdContent, ?_, ?_⟩
  · rw [hids]
    refine List.Nodup.map ?_ (List.Sorted.nodup (acceptedPositions_sorted mdContent))
    intro a b hab
    exact productId_injective a b hab
  · intro hall
    rw [hids, acceptedPositions_all mdContent hall]

/-- C1, an instance: with two accepted data rows and none skipped, the ids are
`product_1` and `product_2`. -/
theorem parseProductDataFromMarkdown_ids_witness :
    (parseProductDataFromMarkdown catalogWithTwoRows).map (fun p => p.id)
      = [js "product_1", js "product_2"] := by
  have h := (parseProductDataFromMarkdown_ids catalogWithTwoRows).2.2.2.2 (by decide)
  rw [h]
  decide

/-- C1 as stated fails: after a skipped data row, the first (and only) accepted row
gets the id `product_2`, not `product_1`. -/
theorem parseProductDataFromMarkdown_ids_counterexample :
    (dataRowsOf catalogWithSkippedRow).filter (fun row => decide (6 ≤ (columnsOf row).length))
        = [js "Name|Brand|About this item Nice|http://x|unisex|http://img"] ∧
    (parseProductDataFromMarkdown catalogWithSkippedRow).map (fun p => p.id)
        = [js "product_2"] ∧
    js "product_2" ≠ js "product_1" := by
  decide

theorem exists_split_with_count (p : JSString → Bool) (lines : List JSString) (n : Nat)
    (h : n ≤ (lines.filter p).length) :
    ∃ pre post, lines = pre ++ post ∧ (pre.filter p).length = n := by
  induction lines generalizing n with
  | nil =>
    have hn : n = 0 := by simpa using h
    exact ⟨[], [], rfl, by simp [hn]⟩
  | cons a lines ih =>
    cases n with
    | zero => exact ⟨[], a :: lines, rfl, rfl⟩
    | succ m =>
      by_cases ha : p a = true
      · have hm : m ≤ (lines.filter p).length := by
          simp only [List.filter_cons, ha, if_true, List.length_cons] at h
          omega
        obtain ⟨pre, post, hsplit, hcount⟩ := ih m hm
        exact ⟨a :: pre, post, by rw [hsplit]; rfl, by simp [List.filter_cons, ha, hcount]⟩
      · have hm : m + 1 ≤ (lines.filter p).length := by
          simpa [List.filter_cons, ha] using h
        obtain ⟨pre, post, hsplit, hcount⟩ := ih (m + 1) hm
        exact ⟨a :: pre, post, by rw [hsplit]; rfl, by simp [List.filter_cons, ha, hcount]⟩

/-- C8, as the code has it: the blank lines are dropped first and the first four of the
remaining lines are discarded, so for every text the data rows are the non-blank lines
that follow the first four non-blank lines.  A text with at most four non-blank lines
has no data rows and yields no product.  A text with at least four non-blank lines
splits into a part holding exactly four non-blank lines and the rest, and for every such
split the data rows are the non-blank lines of the rest. -/
theorem dataRowsOf_after_four_nonblank (mdContent : JSString) :
    (((split 10 mdContent).filter (fun row => decide ((trim row).length > 0))).length ≤ 4 →
      dataRowsOf mdContent = [] ∧ parseProductDataFromMarkdown mdContent = []) ∧
    (4 ≤ ((split 10 mdContent).filter (fun row => decide ((trim row).length > 0))).length →
      ∃ pre post, split 10 mdContent = pre ++ post ∧
        (pre.filter (fun row => decide ((trim row).length > 0))).length = 4) ∧
    (∀ pre post, split 10 mdContent = pre ++ post →
      (pre.filter (fun row => decide ((trim row).length > 0))).length = 4 →
      dataRowsOf mdContent = post.filter (fun row => decide ((trim row).length > 0))) := by
  refine ⟨?_, ?_, ?_⟩
  · intro hshort
    have hrows : dataRowsOf mdContent = [] := by
      unfold dataRowsOf rowsOf
      exact List.drop_eq_nil_of_le hshort
    refine ⟨hrows, ?_⟩
    unfold parseProductDataFromMarkdown
    rw [hrows]
    rfl
  · intro hlong
    exact exists_split_with_count _ _ 4 hlong
  · intro pre post hsplit hfour
    unfold dataRowsOf rowsOf
    rw [hsplit, List.filter_append]
    exact List.drop_left' hfour

/-- C8, two instances.  With a blank second line the first five lines are discarded and
the data rows are the two non-blank lines after them; a text that holds only a table
header and its separator has no data rows and yields no product. -/
theorem dataRowsOf_after_four_nonblank_witness :
    dataRowsOf catalogWithBlankLines
      = [js "A|B|C|http://a|men|http://i", js "D|E|F|http://d|women|http://j"] ∧
    dataRowsOf catalogHeaderOnly = [] ∧
    parseProductDataFromMarkdown catalogHeaderOnly = [] := by
  have hrows := (dataRowsOf_after_four_nonblank catalogWithBlankLines).2.2
    [js "h1", [], js "h2", js "h3", js "h4"]
    [js "A|B|C|http://a|men|http://i", [], js "D|E|F|http://d|women|http://j"]
    (by decide) (by decide)
  have hshort := (dataRowsOf_after_four_nonblank catalogHeaderOnly).1 (by decide)
  refine ⟨?_, hshort.1, hshort.2⟩
  rw [hrows]
  decide

/-- C8 as stated fails: when one of the first four lines is blank, the fifth line is
discarded as well, although it is a non-blank line after the first four lines. -/
theorem dataRowsOf_counterexample :
    ((split 10 catalogWithBlankHeaderLine).drop 4).filter
        (fun row => decide ((trim row).length > 0))
      = [js "Name|Brand|About this item Nice|http://x|unisex|http://img"] ∧
    dataRowsOf catalogWithBlankHeaderLine = [] ∧
    parseProductDataFromMarkdown catalogWithBlankHeaderLine = [] := by
  decide

/-- C9: a data row with fewer than 6 non-empty trimmed cells yields no product, every
other data row yields exactly one, the catalog is what the rows yield in order, and so
it has as many products as there are rows with at least 6 cells, at most the number of
data rows. -/
theorem parseProductDataFromMarkdown_count (mdContent : JSString) :
    (∀ row index, (columnsOf row).length < 6 → productOfRow row index = none) ∧
    (∀ row index, 6 ≤ (columnsOf row).length → ∃ p, productOfRow row index = some p) ∧
    parseProductDataFromMarkdown mdContent
      = (dataRowsOf mdContent).enum.filterMap (fun ir => productOfRow ir.2 ir.1) ∧
    (parseProductDataFromMarkdown mdContent).length
      = ((dataRowsOf mdContent).filter
          (fun row => decide (6 ≤ (columnsOf row).length))).length ∧
    (parseProductDataFromMarkdown mdContent).length ≤ (dataRowsOf mdContent).length := by
  have hlen : (parseProductDataFromMarkdown mdContent).length
      = ((dataRowsOf mdContent).filter
          (fun row => decide (6 ≤ (columnsOf row).length))).length := by
    rw [parseProductDataFromMarkdown_eq, length_filterMap_productOfRow,
      ← filter_enumFrom_snd (fun row => decide (6 ≤ (columnsOf row).length))
        (dataRowsOf mdContent) 0]
    simp [List.enum]
  refine ⟨productOfRow_none, ?_, parseProductDataFromMarkdown_eq mdContent, hlen, ?_⟩
  · intro row index h
    obtain ⟨p, hp, _⟩ := productOfRow_some row index h
    exact ⟨p, hp⟩
  · rw [hlen]
    exact List.length_filter_le _ _

/-! ## Facts about the response parser -/

theorem dropLiteral_eq_some (l cs r : JSString) :
    dropLiteral l cs = some r ↔ cs = l ++ r := by
  induction l generalizing cs with
  | nil => simp [dropLiteral, eq_comm]
  | cons a l ih =>
    cases cs with
    | nil => simp [dropLiteral]
    | cons c cs =>
      by_cases hac : a = c
      · subst hac
        simp [dropLiteral, ih]
      · simp only [dropLiteral, if_neg hac, List.cons_append, List.cons.injEq]
        constructor
        · intro h
          cases h
        · intro h
          exact absurd h.1.symm hac

theorem takeWhile_append_stop (p : CodeUnit → Bool) (l : JSString) (x : CodeUnit)
    (r : JSString) (hl : ∀ a ∈ l, p a = true) (hx : p x = false) :
    (l ++ x :: r).takeWhile p = l ∧ (l ++ x :: r).dropWhile p = x :: r := by
  induction l with
  | nil => simp [List.takeWhile_cons, List.dropWhile_cons, hx]
  | cons a l ih =>
    have ha : p a = true := hl a (List.mem_cons_self _ _)
    have ih2 := ih (fun b hb => hl b (List.mem_cons_of_mem _ hb))
    simp [List.takeWhile_cons, List.dropWhile_cons, ha, ih2.1, ih2.2]

theorem tagClose_eq : tagClose = 34 :: js "></product-card>" := by
  decide

theorem productCardAt_of_tag (id post : JSString) (hid : ValidId id) :
    productCardAt (tagText id ++ post) = some id := by
  have hstop := takeWhile_append_stop (fun c => c != 34) id 34
    (js "></product-card>" ++ post)
    (by
      intro a ha
      have : a ≠ 34 := fun h => hid.2 (h ▸ ha)
      simpa using this)
    (by simp)
  have hdrop : dropLiteral tagOpen (tagText id ++ post)
      = some (id ++ 34 :: (js "></product-card>" ++ post)) := by
    rw [dropLiteral_eq_some]
    simp [tagText, tagClose_eq, List.append_assoc]
  have hclose : dropLiteral tagClose (34 :: (js "></product-card>" ++ post)) = some post := by
    rw [dropLiteral_eq_some]
    simp [tagClose_eq]
  unfold productCardAt
  simp only [hdrop, hstop.1, hstop.2, hclose, if_neg hid.1]

theorem productCardAt_sound (cs id : JSString) (h : productCardAt cs = some id) :
    ValidId id ∧ ∃ post, cs = tagText id ++ post := by
  unfold productCardAt at h
  cases hd : dropLiteral tagOpen cs with
  | none => simp [hd] at h
  | some r =>
    simp only [hd] at h
    by_cases he : r.takeWhile (fun c => c != 34) = []
    · simp [he] at h
    · rw [if_neg he] at h
      cases hc : dropLiteral tagClose (r.dropWhile (fun c => c != 34)) with
      | none => simp [hc] at h
      | some rest =>
        simp only [hc, Option.some.injEq] at h
        subst h
        refine ⟨⟨he, ?_⟩, rest, ?_⟩
        · intro hmem
          have := List.mem_takeWhile_imp hmem
          simp at this
        · have h1 := (dropLiteral_eq_some _ _ _).mp hd
          have h2 := (dropLiteral_eq_some _ _ _).mp hc
          have h3 := List.takeWhile_append_dropWhile (fun c => c != 34) r
          rw [h1, tagText, List.append_assoc, List.append_assoc, ← h2, h3]

theorem tagText_ne_nil (id : JSString) : tagText id ≠ [] := by
  have h : tagOpen = 60 :: js "product-card data-id=\"" := by decide
  simp [tagText, h]

theorem tagText_length_pos (id : JSString) : 0 < (tagText id).length :=
  List.length_pos.mpr (tagText_ne_nil id)

theorem noTag_nil : NoTag [] := by
  intro pre id post _ h
  have := congrArg List.length h
  have hpos := tagText_length_pos id
  simp at this
  omega

theorem noTag_cons (c : CodeUnit) (cs : JSString) (hc : productCardAt (c :: cs) = none) :
    NoTag (c :: cs) ↔ NoTag cs := by
  constructor
  · intro h pre id post hid heq
    exact h (c :: pre) id post hid (by simp [heq])
  · intro h pre id post hid heq
    cases pre with
    | nil =>
      rw [heq, List.nil_append, productCardAt_of_tag id post hid] at hc
      cases hc
    | cons a pre =>
      simp only [List.cons_append, List.cons.injEq] at heq
      exact h pre id post hid heq.2

theorem searchCard_none (cs : JSString) (index : Nat) :
    searchCard cs index = none ↔ NoTag cs := by
  induction cs generalizing index with
  | nil => simp [searchCard, noTag_nil]
  | cons c cs ih =>
    cases hc : productCardAt (c :: cs) with
    | none =>
      simp only [searchCard, hc]
      rw [ih, noTag_cons c cs hc]
    | some id =>
      simp only [searchCard, hc]
      constructor
      · intro h
        cases h
      · intro h
        obtain ⟨hid, post, heq⟩ := productCardAt_sound _ _ hc
        exact absurd (by simpa using heq) (h [] id post hid)

theorem searchCard_some (cs : JSString) (index : Nat) (m : CardMatch)
    (h : searchCard cs index = some m) :
    ∃ pre post, FirstTag cs pre m.productId post ∧
      m = { fullMatch := tagText m.productId, productId := m.productId,
            index := index + pre.length } := by
  induction cs generalizing index with
  | nil => simp [searchCard] at h
  | cons c cs ih =>
    cases hc : productCardAt (c :: cs) with
    | some id =>
      simp only [searchCard, hc, Option.some.injEq] at h
      subst h
      obtain ⟨hid, post, heq⟩ := productCardAt_sound _ _ hc
      refine ⟨[], post, ⟨hid, by simpa using heq, ?_⟩, ?_⟩
      · intro pre' id' post' _ _
        simp
      · simp [tagText]
    | none =>
      simp only [searchCard, hc] at h
      obtain ⟨pre, post, ⟨hid, heq, hfirst⟩, hm⟩ := ih (index + 1) h
      refine ⟨c :: pre, post, ⟨hid, by simp [heq], ?_⟩, ?_⟩
      · intro pre' id' post' hid' heq'
        cases pre' with
        | nil =>
          rw [heq', List.nil_append, productCardAt_of_tag id' post' hid'] at hc
          cases hc
        | cons a pre' =>
          simp only [List.cons_append, List.cons.injEq] at heq'
          have := hfirst pre' id' post' hid' heq'.2
          simp
          omega
      · rw [hm]
        simp
        omega

theorem searchCard_of_firstTag (cs pre id post : JSString) (index : Nat)
    (h : FirstTag cs pre id post) :
    searchCard cs index
      = some { fullMatch := tagText id, productId := id, index := index + pre.length } := by
  cases hs : searchCard cs index with
  | none =>
    exact absurd h.2.1 ((searchCard_none cs index).mp hs pre id post h.1)
  | some m =>
    obtain ⟨pre', post', ⟨hid', heq', hfirst'⟩, hm⟩ := searchCard_some cs index m hs
    have hle1 := h.2.2 pre' m.productId post' hid' heq'
    have hle2 := hfirst' pre id post h.1 h.2.1
    have hlen : pre.length = pre'.length := by omega
    have heq : pre ++ (tagText id ++ post) = pre' ++ (tagText m.productId ++ post') := by
      rw [← List.append_assoc, ← List.append_assoc, ← h.2.1, ← heq']
    have hpre := List.append_inj heq hlen
    have h1 := productCardAt_of_tag id post h.1
    rw [hpre.2, productCardAt_of_tag m.productId post' hid'] at h1
    simp only [Option.some.injEq] at h1
    rw [hm, h1, hlen]

theorem firstTag_unique (text pre id post pre' id' post' : JSString)
    (h : FirstTag text pre id post) (h' : FirstTag text pre' id' post') :
    pre = pre' ∧ id = id' ∧ post = post' := by
  have hle1 := h.2.2 pre' id' post' h'.1 h'.2.1
  have hle2 := h'.2.2 pre id post h.1 h.2.1
  have hlen : pre.length = pre'.length := by omega
  have heq : pre ++ (tagText id ++ post) = pre' ++ (tagText id' ++ post') := by
    rw [← List.append_assoc, ← List.append_assoc, ← h.2.1, ← h'.2.1]
  have hpre := List.append_inj heq hlen
  have h1 := productCardAt_of_tag id post h.1
  rw [hpre.2, productCardAt_of_tag id' post' h'.1] at h1
  simp only [Option.some.injEq] at h1
  subst h1
  exact ⟨hpre.1, rfl, List.append_cancel_left hpre.2⟩

theorem tagMatches_unique (text : JSString) (offset : Nat) (ms ms' : List CardMatch)
    (h : TagMatches text offset ms) (h' : TagMatches text offset ms') : ms = ms' := by
  induction h generalizing ms' with
  | done hno =>
    cases h' with
    | done _ => rfl
    | next hfirst _ => exact absurd hfirst.2.1 (hno _ _ _ hfirst.1)
  | next hfirst _ ih =>
    cases h' with
    | done hno => exact absurd hfirst.2.1 (hno _ _ _ hfirst.1)
    | next hfirst' hrest' =>
      obtain ⟨hpre, hid, hpost⟩ := firstTag_unique _ _ _ _ _ _ _ hfirst hfirst'
      subst hpre
      subst hid
      subst hpost
      rw [ih _ hrest']

theorem tagMatches_exists_aux :
    ∀ (n : Nat) (text : JSString), text.length = n → ∀ offset, ∃ ms, TagMatches text offset ms := by
  intro n
  induction n using Nat.strong_induction_on with
  | _ n ih =>
    intro text hn offset
    cases hs : searchCard text 0 with
    | none => exact ⟨[], TagMatches.done ((searchCard_none text 0).mp hs)⟩
    | some m =>
      obtain ⟨pre, post, hfirst, _⟩ := searchCard_some text 0 m hs
      have hlt : post.length < n := by
        have := congrArg List.length hfirst.2.1
        have hpos := tagText_length_pos m.productId
        simp at this
        omega
      obtain ⟨ms, hms⟩ := ih post.length hlt post rfl
        (offset + pre.length + (tagText m.productId).length)
      exact ⟨_, TagMatches.next hfirst hms⟩

theorem tagMatches_exists (text : JSString) (offset : Nat) :
    ∃ ms, TagMatches text offset ms :=
  tagMatches_exists_aux text.length text rfl offset

theorem whileLoop_of_tagMatches (productsData : List Product) (response : JSString)
    (text : JSString) (offset : Nat) (ms : List CardMatch) (h : TagMatches text offset ms) :
    ∀ (fuel : Nat) (st : LoopState), st.lastIndex = offset → offset ≤ response.length →
      response.drop offset = text → text.length < fuel →
      whileLoop productsData response fuel st
        = some {
            lastIndex := 0
            productCardMatches := st.productCardMatches ++ ms
            recommendedProducts := st.recommendedProducts ++
              ms.filterMap (fun m => productsData.find? (fun p => p.id == m.productId)) } := by
  induction h with
  | @done text offset hno =>
    intro fuel st hst hle hdrop hfuel
    cases fuel with
    | zero => omega
    | succ fuel =>
      have hexec : productCardRegexExec response st.lastIndex = none := by
        unfold productCardRegexExec
        rw [if_neg (by omega), hst, hdrop]
        exact (searchCard_none text offset).mpr hno
      simp [whileLoop, hexec]
  | @next text pre id post offset ms hfirst _ ih =>
    intro fuel st hst hle hdrop hfuel
    cases fuel with
    | zero => omega
    | succ fuel =>
      have hexec : productCardRegexExec response st.lastIndex
          = some { fullMatch := tagText id, productId := id, index := offset + pre.length } := by
        unfold productCardRegexExec
        rw [if_neg (by omega), hst, hdrop]
        exact searchCard_of_firstTag text pre id post offset hfirst
      have hlen : text.length = pre.length + (tagText id).length + post.length := by
        rw [hfirst.2.1]
        simp
        omega
      have hlen2 : (response.drop offset).length = text.length := by rw [hdrop]
      rw [List.length_drop] at hlen2
      have hpos := tagText_length_pos id
      have hdrop2 : response.drop (offset + pre.length + (tagText id).length) = post := by
        have hsum : offset + pre.length + (tagText id).length
            = offset + (pre.length + (tagText id).length) := by omega
        rw [hsum, ← List.drop_drop, hdrop, hfirst.2.1]
        exact List.drop_left' (by simp)
      simp only [whileLoop, hexec]
      rw [ih fuel _ rfl (by omega) hdrop2 (by omega)]
      cases hfind : productsData.find? (fun p => p.id == id) with
      | none => simp [hfind]
      | some product => simp [hfind]

theorem parseProductRecommendations_of_tagMatches (productsData : List Product)
    (response : JSString) (ms : List CardMatch) (h : TagMatches response 0 ms) :
    parseProductRecommendations productsData response
      = some {
          text := response
          introText := introTextOf response ms
          outroText :=
            if (ms.filterMap
                (fun m => productsData.find? (fun p => p.id == m.productId))).length > 0
            then fixedOutroText else []
          products :=
            ms.filterMap (fun m => productsData.find? (fun p => p.id == m.productId)) } := by
  unfold parseProductRecommendations
  rw [whileLoop_of_tagMatches productsData response response 0 ms h (response.length + 1)
    { lastIndex := 0, productCardMatches := [], recommendedProducts := [] } rfl
    (Nat.zero_le _) rfl (Nat.lt_succ_self _)]
  simp

/-- C6: the products returned by `parseProductRecommendations` are the catalog entries
found, by exact id equality, for the data-id values of the non-overlapping tag matches
taken from left to right, the ids that are not found being dropped.  So one match whose
id is known yields the list holding that product alone, and matches whose ids are all
unknown yield the empty list. -/
theorem parseProductRecommendations_products (productsData : List Product)
    (reply : JSString) :
    ∃ ms result,
      TagMatches reply 0 ms ∧ (∀ ms', TagMatches reply 0 ms' → ms' = ms) ∧
      parseProductRecommendations productsData reply = some result ∧
      result.products
        = (ms.map (fun m => m.productId)).filterMap
            (fun id => productsData.find? (fun p => p.id == id)) ∧
      (∀ m product, ms = [m] →
        productsData.find? (fun p => p.id == m.productId) = some product →
        result.products = [product]) ∧
      ((∀ m ∈ ms, productsData.find? (fun p => p.id == m.productId) = none) →
        result.products = []) := by
  obtain ⟨ms, hms⟩ := tagMatches_exists reply 0
  refine ⟨ms, _, hms, fun ms' h' => tagMatches_unique reply 0 ms' ms h' hms,
    parseProductRecommendations_of_tagMatches productsData reply ms hms, ?_, ?_, ?_⟩
  · simp [List.filterMap_map, Function.comp_def]
  · intro m product hm hfind
    subst hm
    simp [hfind]
  · intro hnone
    simp only [List.filterMap_eq_nil_iff]
    exact hnone

/-- C6, an instance: a known tag, an unknown tag and the known tag again yield the
known product twice. -/
theorem parseProductRecommendations_products_example :
    (parseProductRecommendations [productOne] replyWithRepeatedTag).map (fun r => r.products)
      = some [productOne, productOne] := by
  decide

/-- C10: a reply with no occurrence of the tag pattern yields no products, an empty
lead-in text, an empty trailing text, and the reply itself as text. -/
theorem parseProductRecommendations_no_tag (productsData : List Product) (reply : JSString)
    (h : NoTag reply) :
    parseProductRecommendations productsData reply
      = some { text := reply, introText := [], outroText := [], products := [] } := by
  rw [parseProductRecommendations_of_tagMatches productsData reply [] (TagMatches.done h)]
  simp [introTextOf]

/-- C10, an instance: a reply whose only tag-like text has an empty id. -/
theorem parseProductRecommendations_no_tag_witness :
    NoTag replyWithoutTag ∧
    parseProductRecommendations [productOne] replyWithoutTag
      = some { text := replyWithoutTag, introText := [], outroText := [], products := [] } :=
  ⟨(searchCard_none replyWithoutTag 0).mp (by decide),
    parseProductRecommendations_no_tag [productOne] replyWithoutTag
      ((searchCard_none replyWithoutTag 0).mp (by decide))⟩

theorem head_dropWhile_false (p : CodeUnit → Bool) (l : JSString) (c : CodeUnit)
    (cs : JSString) (h : l.dropWhile p = c :: cs) : p c = false := by
  induction l with
  | nil => simp at h
  | cons a l ih =>
    by_cases ha : p a = true
    · rw [List.dropWhile_cons, if_pos ha] at h
      exact ih h
    · rw [List.dropWhile_cons, if_neg ha] at h
      simp only [List.cons.injEq] at h
      rw [← h.1]
      simpa using ha

theorem trim_head_not_whiteSpace (s : JSString) (c : CodeUnit) (cs : JSString)
    (h : trim s = c :: cs) : isWhiteSpace c = false := by
  unfold trim at h
  obtain ⟨t, ht⟩ := List.rdropWhile_prefix isWhiteSpace (l := s.dropWhile isWhiteSpace)
  rw [h] at ht
  exact head_dropWhile_false isWhiteSpace s c (cs ++ t) (by rw [← ht]; rfl)

theorem isSentenceEnd_not_whiteSpace (c : CodeUnit) (h : isSentenceEnd c = true) :
    isWhiteSpace c = false := by
  simp only [isSentenceEnd, Bool.or_eq_true, beq_iff_eq] at h
  rcases h with (h | h) | h <;> subst h <;> decide

theorem firstSentenceMatch_eq (l : JSString) :
    firstSentenceMatch l
      = if l.any isSentenceEnd ∧ l.head?.map isSentenceEnd = some false
        then some (firstSentence l) else none := by
  induction l with
  | nil => simp [firstSentenceMatch]
  | cons a l ih =>
    by_cases ha : isSentenceEnd a = true
    · simp [firstSentenceMatch, List.takeWhile_cons, ha]
    · have ha' : isSentenceEnd a = false := by simpa using ha
      cases l with
      | nil => simp [firstSentenceMatch, List.takeWhile_cons, List.dropWhile_cons, ha']
      | cons b l =>
        by_cases hb : isSentenceEnd b = true
        · simp [firstSentenceMatch, List.takeWhile_cons, List.dropWhile_cons, ha', hb,
            firstSentence]
        · have hb' : isSentenceEnd b = false := by simpa using hb
          simp only [firstSentenceMatch, List.takeWhile_cons, List.dropWhile_cons, ha', hb',
            Bool.not_false, if_true, List.any_cons, Bool.false_or, List.head?_cons,
            Option.map_some', firstSentence, Bool.false_eq_true, if_false, reduceCtorEq,
            true_and, and_true] at ih ⊢
          by_cases hany : l.any isSentenceEnd = true
          · simp only [hany, if_true] at ih ⊢
            cases hd : l.dropWhile (fun c => !isSentenceEnd c) with
            | nil => simp [hd] at ih
            | cons p rest =>
              simp only [hd, Option.some.injEq] at ih ⊢
              simpa using ih
          · simp only [hany, if_false] at ih ⊢
            cases hd : l.dropWhile (fun c => !isSentenceEnd c) with
            | nil => simp
            | cons p rest => simp [hd] at ih

theorem firstSentence_ends (l : JSString) (h : l.any isSentenceEnd = true) :
    ∃ run p, firstSentence l = run ++ [p] ∧ isSentenceEnd p = true := by
  induction l with
  | nil => simp at h
  | cons a l ih =>
    by_cases ha : isSentenceEnd a = true
    · exact ⟨[], a, by simp [firstSentence, ha], ha⟩
    · have hl : l.any isSentenceEnd = true := by
        simpa [List.any_cons, ha] using h
      obtain ⟨run, p, hrun, hp⟩ := ih hl
      exact ⟨a :: run, p, by simp [firstSentence, ha, hrun], hp⟩

theorem trim_firstSentence (c : CodeUnit) (cs : JSString) (hc : isWhiteSpace c = false)
    (h : (c :: cs).any isSentenceEnd = true) :
    trim (firstSentence (c :: cs)) = firstSentence (c :: cs) := by
  obtain ⟨run, p, hrun, hp⟩ := firstSentence_ends (c :: cs) h
  have hhead : ∃ t, firstSentence (c :: cs) = c :: t := by
    by_cases hce : isSentenceEnd c = true
    · exact ⟨[], by simp [firstSentence, hce]⟩
    · exact ⟨firstSentence cs, by simp [firstSentence, hce]⟩
  obtain ⟨t, ht⟩ := hhead
  unfold trim
  have h1 : (firstSentence (c :: cs)).dropWhile isWhiteSpace = firstSentence (c :: cs) := by
    rw [ht, List.dropWhile_cons, if_neg (by simp [hc])]
  rw [h1, hrun]
  exact List.rdropWhile_concat_neg _ _ _ (by simp [isSentenceEnd_not_whiteSpace p hp])

theorem introTextOf_firstTag (reply pre id post : JSString) (ms : List CardMatch)
    (heq : reply = pre ++ tagText id ++ post) :
    introTextOf reply
        ({ fullMatch := tagText id, productId := id, index := 0 + pre.length } :: ms)
      = codeIntroText (trim pre) := by
  unfold introTextOf
  simp only [Nat.zero_add]
  by_cases hpos : pre.length > 0
  · rw [if_pos hpos]
    have htake : substring0 reply pre.length = pre := by
      rw [heq, substring0, List.append_assoc]
      exact List.take_left' rfl
    simp only [htake]
    rw [firstSentenceMatch_eq]
    unfold codeIntroText
    by_cases hcond : (trim pre).any isSentenceEnd = true
        ∧ (trim pre).head?.map isSentenceEnd = some false
    · rw [if_pos hcond, if_pos hcond]
      simp only []
      cases ht : trim pre with
      | nil => simp [ht] at hcond
      | cons c cs =>
        rw [ht] at hcond
        exact trim_firstSentence c cs (trim_head_not_whiteSpace pre c cs ht) hcond.1
    · rw [if_neg hcond, if_neg hcond]
      simp only [substring0]
  · have hnil : pre = [] := List.length_eq_zero.mp (by omega)
    rw [if_neg hpos, hnil]
    decide

theorem firstTag_of_searchCard (text pre id post : JSString)
    (heq : text = pre ++ tagText id ++ post)
    (hs : searchCard text 0
      = some { fullMatch := tagText id, productId := id, index := pre.length }) :
    FirstTag text pre id post := by
  obtain ⟨pre', post', hfirst, hm⟩ := searchCard_some text 0 _ hs
  simp only [CardMatch.mk.injEq, true_and, Nat.zero_add] at hm
  have h2 : pre ++ (tagText id ++ post) = pre' ++ (tagText id ++ post') := by
    rw [← List.append_assoc, ← List.append_assoc, ← heq]
    exact hfirst.2.1
  have hpre := List.append_inj h2 hm
  have hpost : post = post' := List.append_cancel_left hpre.2
  rw [hpre.1, hpost]
  exact hfirst

theorem codeIntroText_eq_stated (l : JSString)
    (h : l.head?.map isSentenceEnd ≠ some true) : codeIntroText l = statedIntroText l := by
  cases l with
  | nil => rfl
  | cons c cs =>
    have hc : isSentenceEnd c = false := by simpa using h
    simp [codeIntroText, statedIntroText, hc]

/-- C5, as the code has it: when the reply has a tag match, the lead-in text is
computed from L, the trimmed text before the first tag.  If L contains `.`, `!` or `?`
and does not begin with one of them, it is the first sentence of L, up to and including
the first such character; otherwise, if L is longer than 120, it is the first 120 code
units of L followed by "..."; otherwise it is L.  Unless L begins with `.`, `!` or `?`,
this is the rule as the specification states it. -/
theorem parseProductRecommendations_introText (productsData : List Product)
    (reply pre id post : JSString) (h : FirstTag reply pre id post) :
    ∃ result, parseProductRecommendations productsData reply = some result ∧
      result.introText = codeIntroText (trim pre) ∧
      ((trim pre).head?.map isSentenceEnd ≠ some true →
        result.introText = statedIntroText (trim pre)) := by
  obtain ⟨ms, hms⟩ := tagMatches_exists reply 0
  have hintro : introTextOf reply ms = codeIntroText (trim pre) := by
    cases hms with
    | done hno => exact absurd h.2.1 (hno pre id post h.1)
    | @next _ pre' id' post' _ ms' hfirst hrest =>
      obtain ⟨hpre, _, _⟩ := firstTag_unique _ _ _ _ _ _ _ hfirst h
      rw [← hpre]
      exact introTextOf_firstTag reply pre' id' post' ms' hfirst.2.1
  refine ⟨_, parseProductRecommendations_of_tagMatches productsData reply ms hms, hintro, ?_⟩
  intro hhead
  rw [← codeIntroText_eq_stated (trim pre) hhead]
  exact hintro

/-- C5, an instance: the text before the tag is trimmed and cut after its first
sentence. -/
theorem parseProductRecommendations_introText_witness :
    FirstTag replyWithSentence (js " Here you go! More text ") (js "product_1") (js " bye") ∧
    ∃ result, parseProductRecommendations [productOne] replyWithSentence = some result ∧
      result.introText = js "Here you go!" := by
  have hfirst : FirstTag replyWithSentence (js " Here you go! More text ") (js "product_1")
      (js " bye") := firstTag_of_searchCard _ _ _ _ (by decide) (by decide)
  obtain ⟨result, hparse, hintro, _⟩ :=
    parseProductRecommendations_introText [productOne] replyWithSentence
      (js " Here you go! More text ") (js "product_1") (js " bye") hfirst
  exact ⟨hfirst, result, hparse, hintro⟩

/-- C5 as stated fails: the text before the first tag is `.a`, which contains a full
stop, yet the lead-in text is `.a` and not its first sentence `.`. -/
theorem parseProductRecommendations_introText_counterexample :
    replyDotFirst = js ".a" ++ tagText (js "product_1") ∧
    searchCard replyDotFirst 0
      = some { fullMatch := tagText (js "product_1"), productId := js "product_1", index := 2 } ∧
    (parseProductRecommendations [productOne] replyDotFirst).map (fun r => r.introText)
      = some (js ".a") ∧
    statedIntroText (trim (js ".a")) = js "." ∧
    js ".a" ≠ js "." := by
  decide

/-! ## Facts about the conversation store -/

theorem formatMessagesForClaude_eq (history : List Turn) :
    formatMessagesForClaude history = history := by
  unfold formatMessagesForClaude
  exact List.map_id'' (fun _ => rfl) history

theorem parseProductRecommendations_total (productsData : List Product) (response : JSString) :
    ∃ result, parseProductRecommendations productsData response = some result := by
  obtain ⟨ms, hms⟩ := tagMatches_exists response 0
  exact ⟨_, parseProductRecommendations_of_tagMatches productsData response ms hms⟩

theorem handleSendMessage_total (productsData : List Product)
    (generateMessageId : Nat → JSString) (callClaudeAPI : List Turn → GatewayResult)
    (s : ChatState) :
    ∃ out, handleSendMessage productsData generateMessageId callClaudeAPI s = some out := by
  unfold handleSendMessage
  simp only []
  cases hp : (handleSendMessageStart productsData generateMessageId s).pending with
  | none => exact ⟨_, rfl⟩
  | some p =>
    simp only []
    cases hc : callClaudeAPI p.request with
    | resolved response =>
      obtain ⟨result, hres⟩ := parseProductRecommendations_total productsData response
      simp [handleSendMessageSettle, hres]
    | rejected message => simp [handleSendMessageSettle]

/-- C7: when the catalog is empty, or the transcript is empty, or its first turn is not a
system turn, a submit of non-blank input appends one assistant message with the
"system not ready" text to the UI list and changes nothing else: the transcript, the
pending input and the busy flag are as before, no user message is added, and no
gateway call is made or awaited. -/
theorem handleSendMessage_not_ready (productsData : List Product)
    (generateMessageId : Nat → JSString) (callClaudeAPI : List Turn → GatewayResult)
    (s : ChatState) (hinput : (trim s.input).length ≠ 0)
    (hnot : productsData = [] ∨ s.chatHistory = [] ∨
      s.chatHistory.head?.map (fun t => t.role) ≠ some Role.system) :
    (handleSendMessageStart productsData generateMessageId s).pending = none ∧
    handleSendMessage productsData generateMessageId callClaudeAPI s
      = some {
          state := {
            messages := s.messages ++ [{
              id := generateMessageId 0
              role := Role.assistant
              content := notReadyText
              introText := none
              outroText := none
              products := none }]
            input := s.input
            isLoading := s.isLoading
            chatHistory := s.chatHistory }
          calls := [] } := by
  have hready : ensureSystemIsReady productsData s.chatHistory = false := by
    unfold ensureSystemIsReady
    rcases hnot with h | h | h
    · simp [h]
    · simp [h]
    · cases hc : s.chatHistory with
      | nil => simp
      | cons first rest =>
        rw [hc] at h
        have hrole : first.role ≠ Role.system := by simpa using h
        simp [hrole]
  have hstart : handleSendMessageStart productsData generateMessageId s
      = { state := { s with
            messages := s.messages ++ [{
              id := generateMessageId 0
              role := Role.assistant
              content := notReadyText
              introText := none
              outroText := none
              products := none }] }
          pending := none } := by
    unfold handleSendMessageStart
    rw [if_neg hinput, hready]
    rfl
  constructor
  · rw [hstart]
  · unfold handleSendMessage
    rw [hstart]

/-- C7, an instance: the transcript has not been set up, the user submits `boots`. -/
theorem handleSendMessage_not_ready_witness :
    (handleSendMessageStart [productOne] exampleIds notReadyState).pending = none ∧
    handleSendMessage [productOne] exampleIds answeringGateway notReadyState
      = some {
          state := {
            messages := [{
              id := js "msg-0"
              role := Role.assistant
              content := notReadyText
              introText := none
              outroText := none
              products := none }]
            input := js "boots"
            isLoading := false
            chatHistory := [] }
          calls := [] } :=
  handleSendMessage_not_ready [productOne] exampleIds answeringGateway notReadyState
    (by decide) (Or.inr (Or.inl rfl))

/-- C2, as the code has it: in a ready state with non-blank input, when the gateway call
fails, the transcript after the submit is the transcript before it with the user turn
appended; no assistant turn is appended.  The UI list gains the user message and one
assistant error message, the pending input is cleared, the busy flag ends cleared, and
the one gateway call carried the transcript with the user turn. -/
theorem handleSendMessage_gateway_failure (productsData : List Product)
    (generateMessageId : Nat → JSString) (callClaudeAPI : List Turn → GatewayResult)
    (s : ChatState) (message : Option JSString)
    (hinput : (trim s.input).length ≠ 0)
    (hcatalog : productsData ≠ [])
    (hsystem : s.chatHistory.head?.map (fun t => t.role) = some Role.system)
    (hfail : callClaudeAPI (s.chatHistory ++ [{ role := Role.user, content := s.input }])
      = GatewayResult.rejected message) :
    handleSendMessage productsData generateMessageId callClaudeAPI s
      = some {
          state := {
            messages := s.messages ++ [
              { id := generateMessageId 0
                role := Role.user
                content := s.input
                introText := none
                outroText := none
                products := none },
              { id := generateMessageId 1
                role := Role.assistant
                content := errorText message
                introText := none
                outroText := none
                products := none }]
            input := []
            isLoading := false
            chatHistory := s.chatHistory ++ [{ role := Role.user, content := s.input }] }
          calls := [s.chatHistory ++ [{ role := Role.user, content := s.input }]] } := by
  have hready : ensureSystemIsReady productsData s.chatHistory = true := by
    unfold ensureSystemIsReady
    have hlen : productsData.length ≠ 0 := by
      intro h
      exact hcatalog (List.length_eq_zero.mp h)
    cases hc : s.chatHistory with
    | nil => simp [hc] at hsystem
    | cons first rest =>
      rw [hc] at hsystem
      have hrole : first.role = Role.system := by simpa using hsystem
      simp [hlen, hrole]
  unfold handleSendMessage handleSendMessageStart
  rw [if_neg hinput, hready]
  simp [formatMessagesForClaude_eq, hfail, handleSendMessageSettle]

/-- C2, an instance: a ready state, the input `boots`, a gateway that fails. -/
theorem handleSendMessage_gateway_failure_witness :
    (handleSendMessage [productOne] exampleIds failingGateway readyState).map
        (fun out => out.state.chatHistory)
      = some [{ role := Role.system, content := js "You are a shopping assistant" },
          { role := Role.user, content := js "boots" }] := by
  rw [handleSendMessage_gateway_failure [productOne] exampleIds failingGateway readyState
    (some (js "API request failed")) (by decide) (by decide) (by decide) rfl]
  rfl

/-- C2 as stated fails: after a submit whose gateway call failed, the transcript is not
the transcript before the submit; it has gained the user turn. -/
theorem handleSendMessage_gateway_failure_counterexample :
    (handleSendMessage [productOne] exampleIds failingGateway readyState).map
        (fun out => out.state.chatHistory)
      = some (readyState.chatHistory ++ [{ role := Role.user, content := js "boots" }]) ∧
    (handleSendMessage [productOne] exampleIds failingGateway readyState).map
        (fun out => out.state.chatHistory)
      ≠ some readyState.chatHistory := by
  decide

/-- C3, as the code has it: the busy flag is tested by `handleKeyPress`, not by
`handleSendMessage`.  In a state whose busy flag is set, a key press is a silent no-op
whatever the key and the input: the UI list, the transcript, the pending input and the
busy flag are unchanged and no gateway call is made.  A direct call of
`handleSendMessage` in such a state is a no-op when the pending input is blank. -/
theorem handleKeyPress_busy (productsData : List Product)
    (generateMessageId : Nat → JSString) (callClaudeAPI : List Turn → GatewayResult)
    (s : ChatState) (hbusy : s.isLoading = true) :
    (∀ key, handleKeyPress productsData generateMessageId callClaudeAPI key s
      = some { state := s, calls := [] }) ∧
    ((trim s.input).length = 0 →
      handleSendMessage productsData generateMessageId callClaudeAPI s
        = some { state := s, calls := [] }) := by
  constructor
  · intro key
    unfold handleKeyPress
    rw [if_neg (by simp [hbusy])]
  · intro hblank
    unfold handleSendMessage handleSendMessageStart
    rw [if_pos hblank]

/-- C3, an instance: Enter is pressed in a busy state with pending input. -/
theorem handleKeyPress_busy_witness :
    busyState.isLoading = true ∧
    handleKeyPress [productOne] exampleIds answeringGateway (js "Enter") busyState
      = some { state := busyState, calls := [] } :=
  ⟨rfl, (handleKeyPress_busy [productOne] exampleIds answeringGateway busyState rfl).1
    (js "Enter")⟩

/-- C3 as stated fails: `handleSendMessage`, invoked in a state whose busy flag is set,
sends the pending input to the gateway and appends to the UI list and the transcript. -/
theorem handleSendMessage_busy_counterexample :
    busyState.isLoading = true ∧
    handleSendMessage [productOne] exampleIds answeringGateway busyState
      = some {
          state := {
            messages := [
              { id := js "msg-0", role := Role.user, content := js "boots",
                introText := none, outroText := none, products := none },
              { id := js "msg-1", role := Role.assistant, content := js "Which size?",
                introText := some [], outroText := some [], products := some [] }]
            input := []
            isLoading := false
            chatHistory := [
              { role := Role.system, content := js "You are a shopping assistant" },
              { role := Role.user, content := js "boots" },
              { role := Role.assistant, content := js "Which size?" }] }
          calls := [[
            { role := Role.system, content := js "You are a shopping assistant" },
            { role := Role.user, content := js "boots" }]] } ∧
    handleSendMessage [productOne] exampleIds answeringGateway busyState
      ≠ some { state := busyState, calls := [] } := by
  decide

theorem assistantsFollowUsers_append_user (prev : Role) (l : List Role) :
    assistantsFollowUsers prev (l ++ [Role.user]) = assistantsFollowUsers prev l := by
  induction l generalizing prev with
  | nil => rfl
  | cons r l ih =>
    cases r with
    | system => rfl
    | user => simp [assistantsFollowUsers, ih]
    | assistant => simp [assistantsFollowUsers, ih]

theorem assistantsFollowUsers_append_pair (prev : Role) (l : List Role) :
    assistantsFollowUsers prev (l ++ [Role.user, Role.assistant])
      = assistantsFollowUsers prev l := by
  induction l generalizing prev with
  | nil => rfl
  | cons r l ih =>
    cases r with
    | system => rfl
    | user => simp [assistantsFollowUsers, ih]
    | assistant => simp [assistantsFollowUsers, ih]

/-- The roles after the system turn are a number of user, assistant pairs. -/
theorem alternating_pairs (n : Nat) :
    alternating (List.replicate n [Role.user, Role.assistant]).flatten = true := by
  induction n with
  | zero => rfl
  | succ n ih => simpa [List.replicate_succ, alternating] using ih

theorem pairs_append (n : Nat) :
    (List.replicate n [Role.user, Role.assistant]).flatten ++ [Role.user, Role.assistant]
      = (List.replicate (n + 1) [Role.user, Role.assistant]).flatten := by
  rw [List.replicate_succ']
  simp

/-- What one completed submit does to the transcript: nothing, or it appends the user
turn and, when the gateway call resolved, the assistant turn after it. -/
theorem handleSendMessage_chatHistory (productsData : List Product)
    (generateMessageId : Nat → JSString) (callClaudeAPI : List Turn → GatewayResult)
    (s : ChatState) (out : Outcome)
    (h : handleSendMessage productsData generateMessageId callClaudeAPI s = some out) :
    out.state.chatHistory = s.chatHistory ∨
    (out.state.chatHistory = s.chatHistory ++ [{ role := Role.user, content := s.input }] ∧
      ∃ message, callClaudeAPI (s.chatHistory ++ [{ role := Role.user, content := s.input }])
        = GatewayResult.rejected message) ∨
    ∃ response, out.state.chatHistory
      = s.chatHistory ++ [{ role := Role.user, content := s.input },
          { role := Role.assistant, content := response }] := by
  unfold handleSendMessage handleSendMessageStart at h
  by_cases hblank : (trim s.input).length = 0
  · rw [if_pos hblank] at h
    simp only [Option.some.injEq] at h
    subst h
    exact Or.inl rfl
  · rw [if_neg hblank] at h
    by_cases hready : ensureSystemIsReady productsData s.chatHistory = true
    · simp only [hready, Bool.not_true, Bool.false_eq_true, if_false,
        formatMessagesForClaude_eq] at h
      cases hc : callClaudeAPI (s.chatHistory ++ [{ role := Role.user, content := s.input }]) with
      | resolved response =>
        obtain ⟨result, hres⟩ := parseProductRecommendations_total productsData response
        simp only [hc, handleSendMessageSettle, hres, Option.some.injEq] at h
        subst h
        exact Or.inr (Or.inr ⟨response, by simp⟩)
      | rejected message =>
        simp only [hc, handleSendMessageSettle, Option.some.injEq] at h
        subst h
        exact Or.inr (Or.inl ⟨rfl, message, rfl⟩)
    · simp only [hready, Bool.not_false, if_true, Option.some.injEq] at h
      subst h
      exact Or.inl rfl

theorem reachable_systemThenAnswered (productsData : List Product) (mayFail : Bool)
    (s : ChatState) (h : Reachable productsData mayFail s) :
    ∃ content rest, s.chatHistory = { role := Role.system, content := content } :: rest ∧
      assistantsFollowUsers Role.system (rest.map (fun t => t.role)) = true := by
  induction h with
  | init initialMessages systemPrompt => exact ⟨systemPrompt, [], rfl, rfl⟩
  | setInput text _ ih => exact ih
  | @submit s out generateMessageId callClaudeAPI _ _ hstep ih =>
    obtain ⟨content, rest, hhist, hshape⟩ := ih
    rcases handleSendMessage_chatHistory _ _ _ _ _ hstep with h1 | ⟨h1, _⟩ | ⟨response, h1⟩
    · exact ⟨content, rest, by rw [h1, hhist], hshape⟩
    · refine ⟨content, rest ++ [{ role := Role.user, content := s.input }], by
        rw [h1, hhist]; rfl, ?_⟩
      rw [List.map_append]
      exact (assistantsFollowUsers_append_user _ _).trans hshape
    · refine ⟨content, rest ++ [{ role := Role.user, content := s.input },
        { role := Role.assistant, content := response }], by rw [h1, hhist]; rfl, ?_⟩
      rw [List.map_append]
      exact (assistantsFollowUsers_append_pair _ _).trans hshape

theorem reachable_pairs (productsData : List Product) (s : ChatState)
    (h : Reachable productsData false s) :
    ∃ content rest n, s.chatHistory = { role := Role.system, content := content } :: rest ∧
      rest.map (fun t => t.role) = (List.replicate n [Role.user, Role.assistant]).flatten := by
  induction h with
  | init initialMessages systemPrompt => exact ⟨systemPrompt, [], 0, rfl, rfl⟩
  | setInput text _ ih => exact ih
  | @submit s out generateMessageId callClaudeAPI _ hcall hstep ih =>
    obtain ⟨content, rest, n, hhist, hshape⟩ := ih
    rcases handleSendMessage_chatHistory _ _ _ _ _ hstep with h1 | ⟨_, message, hrej⟩ | ⟨response, h1⟩
    · exact ⟨content, rest, n, by rw [h1, hhist], hshape⟩
    · rcases hcall with hc | hc
      · cases hc
      · obtain ⟨r, hr⟩ := hc (s.chatHistory ++ [{ role := Role.user, content := s.input }])
        rw [hr] at hrej
        cases hrej
    · refine ⟨content, rest ++ [{ role := Role.user, content := s.input },
        { role := Role.assistant, content := response }], n + 1, by rw [h1, hhist]; rfl, ?_⟩
      rw [List.map_append, hshape, ← pairs_append]
      rfl

theorem reachable_stateAfterFailThenSuccess :
    Reachable [productOne] true stateAfterFailThenSuccess := by
  have h0 : Reachable [productOne] true readyState :=
    Reachable.setInput (js "boots")
      (Reachable.init [] (js "You are a shopping assistant"))
  have h1 : Reachable [productOne] true stateAfterFail :=
    @Reachable.submit [productOne] true readyState
      { state := stateAfterFail
        calls := [readyState.chatHistory ++ [{ role := Role.user, content := js "boots" }]] }
      exampleIds failingGateway h0 (Or.inl rfl) (by decide)
  have h2 : Reachable [productOne] true { stateAfterFail with input := js "sandals" } :=
    Reachable.setInput (js "sandals") h1
  exact @Reachable.submit [productOne] true { stateAfterFail with input := js "sandals" }
    { state := stateAfterFailThenSuccess
      calls := [stateAfterFail.chatHistory ++ [{ role := Role.user, content := js "sandals" }]] }
    exampleIds answeringGateway h2 (Or.inl rfl) (by decide)

/-- C4, as the code has it: in every state reachable from the initial transcript by
submits that run to completion, the transcript has exactly one system turn, at index 0,
followed by user and assistant turns in which every assistant turn directly follows a
user turn.  When every gateway call resolved, the turns after the system turn strictly
alternate user, assistant. -/
theorem reachable_transcript_shape (productsData : List Product) (mayFail : Bool)
    (s : ChatState) (h : Reachable productsData mayFail s) :
    systemThenAnswered s.chatHistory = true ∧
    (mayFail = false → strictlyAlternating s.chatHistory = true) := by
  constructor
  · obtain ⟨content, rest, hhist, hshape⟩ := reachable_systemThenAnswered _ _ _ h
    simp [systemThenAnswered, hhist, hshape]
  · intro hmay
    subst hmay
    obtain ⟨content, rest, n, hhist, hshape⟩ := reachable_pairs _ _ h
    simp [strictlyAlternating, hhist, hshape, alternating_pairs]

/-- C4, an instance: the state after a failed and then a successful submit. -/
theorem reachable_transcript_shape_witness :
    Reachable [productOne] true stateAfterFailThenSuccess ∧
    systemThenAnswered stateAfterFailThenSuccess.chatHistory = true :=
  ⟨reachable_stateAfterFailThenSuccess,
    (reachable_transcript_shape [productOne] true stateAfterFailThenSuccess
      reachable_stateAfterFailThenSuccess).1⟩

/-- C4 as stated fails: after a submit whose gateway call failed and a second submit,
the transcript is system, user, user, assistant, with two consecutive user turns. -/
theorem reachable_transcript_shape_counterexample :
    Reachable [productOne] true stateAfterFailThenSuccess ∧
    stateAfterFailThenSuccess.chatHistory.map (fun t => t.role)
      = [Role.system, Role.user, Role.user, Role.assistant] ∧
    strictlyAlternating stateAfterFailThenSuccess.chatHistory = false :=
  ⟨reachable_stateAfterFailThenSuccess, by decide, by decide⟩

/-! ## The two scenarios of the specification -/

theorem split_line (sep : CodeUnit) (line rest : JSString) (h : sep ∉ line) :
    split sep (line ++ sep :: rest) = line :: split sep rest := by
  induction line with
  | nil => simp [split]
  | cons a line ih =>
    have ha : a ≠ sep := fun e => h (e ▸ List.mem_cons_self _ _)
    have hl : sep ∉ line := fun m => h (List.mem_cons_of_mem _ m)
    simp [split, ha, ih hl]

/-- C11: for the reply with a sentence, a tag for `product_1` and a tag for `product_9`,
and a catalog whose only product has the id `product_1`, `parseProductRecommendations`
returns that product alone, the lead-in text "Here are two options." and the fixed
trailing text; the text is the reply itself. -/
theorem parseProductRecommendations_two_options (product : Product)
    (hid : product.id = js "product_1") :
    parseProductRecommendations [product]
        (js "Here are two options. <product-card data-id=\"product_1\"></product-card><product-card data-id=\"product_9\"></product-card>")
      = some {
          text := js "Here are two options. <product-card data-id=\"product_1\"></product-card><product-card data-id=\"product_9\"></product-card>"
          introText := js "Here are two options."
          outroText := js "Would you like more specific recommendations? Feel free to ask for other styles or features."
          products := [product] } := by
  have hfirst1 : FirstTag replyTwoOptions (js "Here are two options. ") (js "product_1")
      (tagText (js "product_9")) :=
    firstTag_of_searchCard _ _ _ _ (by decide) (by decide)
  have hfirst2 : FirstTag (tagText (js "product_9")) [] (js "product_9") [] :=
    firstTag_of_searchCard _ _ _ _ (by decide) (by decide)
  have hms : TagMatches replyTwoOptions 0
      [{ fullMatch := tagText (js "product_1"), productId := js "product_1",
         index := 0 + (js "Here are two options. ").length },
       { fullMatch := tagText (js "product_9"), productId := js "product_9",
         index := 0 + (js "Here are two options. ").length
           + (tagText (js "product_1")).length + ([] : JSString).length }] :=
    TagMatches.next hfirst1 (TagMatches.next hfirst2 (TagMatches.done noTag_nil))
  have hparse := parseProductRecommendations_of_tagMatches [product] replyTwoOptions _ hms
  have hfind1 : [product].find? (fun p => p.id == js "product_1") = some product := by
    simp [List.find?, hid]
  have hfind9 : [product].find? (fun p => p.id == js "product_9") = none := by
    rw [List.find?, hid]
    rfl
  have hintro : introTextOf replyTwoOptions
      [{ fullMatch := tagText (js "product_1"), productId := js "product_1",
         index := 0 + (js "Here are two options. ").length },
       { fullMatch := tagText (js "product_9"), productId := js "product_9",
         index := 0 + (js "Here are two options. ").length
           + (tagText (js "product_1")).length + ([] : JSString).length }]
      = js "Here are two options." := by
    decide
  rw [hintro] at hparse
  simp only [List.filterMap_cons, hfind1, hfind9, List.filterMap_nil] at hparse
  exact hparse

/-- C11, an instance: the catalog holds the one product `productOne`. -/
theorem parseProductRecommendations_two_options_witness :
    productOne.id = js "product_1" ∧
    parseProductRecommendations [productOne] replyTwoOptions
      = some {
          text := replyTwoOptions
          introText := js "Here are two options."
          outroText := fixedOutroText
          products := [productOne] } :=
  ⟨rfl, parseProductRecommendations_two_options productOne rfl⟩

/-- C12: for a catalog text made of four header lines (non-blank, as header lines are)
followed by the single data row of the scenario, with or without a final line feed,
`parseProductDataFromMarkdown` returns exactly one product, with the id `product_1`,
the price `£49.99`, a description that contains `Nice shoes`, and the name, brand,
link, gender and image link of the row. -/
theorem parseProductDataFromMarkdown_scenario (h1 h2 h3 h4 tail : JSString)
    (hline : 10 ∉ h1 ∧ 10 ∉ h2 ∧ 10 ∉ h3 ∧ 10 ∉ h4)
    (hnonblank : trim h1 ≠ [] ∧ trim h2 ≠ [] ∧ trim h3 ≠ [] ∧ trim h4 ≠ [])
    (htail : tail = [] ∨ tail = [10]) :
    ∃ product,
      parseProductDataFromMarkdown
          (h1 ++ 10 :: (h2 ++ 10 :: (h3 ++ 10 :: (h4 ++ 10 ::
            (js "Name|Brand|About this item Nice shoes Price: £49.99 Material composition leather|http://x|unisex|http://img"
              ++ tail)))))
        = [product] ∧
      product.id = js "product_1" ∧
      product.price = js "£49.99" ∧
      product.description = js "Nice shoes Price: £49.99 Material composition leather" ∧
      (∃ before after, product.description = before ++ js "Nice shoes" ++ after) ∧
      product.name = js "Name" ∧
      product.brand = js "Brand" ∧
      product.productLink = js "http://x" ∧
      product.gender = js "unisex" ∧
      product.imageLink = js "http://img" := by
  have hlast : (split 10 (scenarioRow ++ tail)).filter
      (fun row => decide ((trim row).length > 0)) = [scenarioRow] := by
    rcases htail with h | h <;> subst h <;> decide
  have hb : ∀ h : JSString, trim h ≠ [] → decide ((trim h).length > 0) = true := by
    intro h hne
    simpa using List.length_pos.mpr hne
  have hrows : dataRowsOf (h1 ++ 10 :: (h2 ++ 10 :: (h3 ++ 10 :: (h4 ++ 10 ::
      (scenarioRow ++ tail))))) = [scenarioRow] := by
    unfold dataRowsOf rowsOf
    rw [split_line 10 h1 _ hline.1, split_line 10 h2 _ hline.2.1,
      split_line 10 h3 _ hline.2.2.1, split_line 10 h4 _ hline.2.2.2]
    simp only [List.filter_cons, hb h1 hnonblank.1, hb h2 hnonblank.2.1,
      hb h3 hnonblank.2.2.1, hb h4 hnonblank.2.2.2, if_true, hlast]
    rfl
  have hparse : parseProductDataFromMarkdown (h1 ++ 10 :: (h2 ++ 10 :: (h3 ++ 10 ::
      (h4 ++ 10 :: (scenarioRow ++ tail))))) = [scenarioProduct] := by
    unfold parseProductDataFromMarkdown
    rw [hrows]
    decide
  exact ⟨scenarioProduct, hparse, rfl, rfl, rfl,
    ⟨[], js " Price: £49.99 Material composition leather", by decide⟩,
    rfl, rfl, rfl, rfl, rfl⟩

/-- C12, an instance: the header of a markdown table, then the row. -/
theorem parseProductDataFromMarkdown_scenario_witness :
    ∃ product, parseProductDataFromMarkdown scenarioCatalog = [product] ∧
      product.id = js "product_1" ∧ product.price = js "£49.99" := by
  obtain ⟨product, hparse, hid, hprice, _⟩ :=
    parseProductDataFromMarkdown_scenario (js "# Products")
      (js "| Name | Brand | Input AI | Link | Gender | Image |")
      (js "|---|---|---|---|---|---|") (js "| | | | | | |") []
      (by decide) (by decide) (Or.inl rfl)
  exact ⟨product, hparse, hid, hprice⟩

end ShoesRecommend
